import Mathlib

/-!
Verification of the behavioural claims about the aget_tg Telegram bot
(`src/aget_tg.py`, webhook variant, and `src/aget_tg_v1.py`, polling
variant) over a shallow embedding of its core logic.

Modelling conventions:
* Python strings are lists of character codes (`List Nat`); `pystr`
  injects Lean string literals.  The source only manipulates ASCII, so
  `str.lower` / `str.upper` / `str.strip` are modelled on ASCII.
* Event-loop times and USD prices are rationals (`ℚ`); Python float
  `:.2f` formatting is modelled as fixed-point rendering after rounding
  to the nearest cent.
* The remote HTTP services (quote service, generation service) are
  oracles passed as function arguments; a fallible call is an
  `Except Unit` value.  The `functools.lru_cache` wrapper is an explicit
  state machine over an association list kept in most-recently-used
  order.
-/

set_option maxRecDepth 4000

/-- Character codes of a Lean string literal, used to transcribe the
Python string literals appearing in the source. -/
def pystr (s : String) : List Nat := s.data.map Char.toNat

/-- ASCII whitespace recognised by Python `str.strip` (space, TAB, LF,
CR, VT, FF). -/
def pyIsSpace (c : Nat) : Bool :=
  c = 32 || c = 9 || c = 10 || c = 13 || c = 11 || c = 12

/-- One code point of Python `str.lower` (ASCII range). -/
def pyLowerChar (c : Nat) : Nat := if 65 ≤ c ∧ c ≤ 90 then c + 32 else c

/-- One code point of Python `str.upper` (ASCII range). -/
def pyUpperChar (c : Nat) : Nat := if 97 ≤ c ∧ c ≤ 122 then c - 32 else c

/-- Python `str.lower` on a whole string. -/
def pyLower (s : List Nat) : List Nat := s.map pyLowerChar

/-- Python `str.upper` on a whole string. -/
def pyUpper (s : List Nat) : List Nat := s.map pyUpperChar

/-- Leading-whitespace removal (the left half of Python `str.strip`). -/
def lstrip (s : List Nat) : List Nat := s.dropWhile (fun c => pyIsSpace c)

/-- Trailing-whitespace removal (the right half of Python `str.strip`). -/
def rstrip (s : List Nat) : List Nat :=
  (s.reverse.dropWhile (fun c => pyIsSpace c)).reverse

/-- Python `str.strip`: remove leading and trailing whitespace. -/
def pyStrip (s : List Nat) : List Nat := rstrip (lstrip s)

/-! ## Rate limiter (`rate_limit` decorator, src/aget_tg.py lines 43-66;
the body is identical in src/aget_tg_v1.py lines 37-60). -/

/-- Per-user step of the wrapper produced by the `rate_limit` decorator
in `src/aget_tg.py`.  `stored` is `request_times.get(user_id)` before
the call (`none` when `user_id not in request_times`), `now` is
`asyncio.get_event_loop().time()`, and `handler` is the value of
`await func(update, context)`.  The result is the wrapper's return value
(`none` for the rejection branch, which replies with the "Too many
requests" message and returns `None`) paired with the user's entry of
`request_times` after the call. -/
def rate_limit {α : Type} (MAX : ℕ) (WINDOW : ℚ) (handler : α)
    (stored : Option (List ℚ)) (now : ℚ) : Option α × List ℚ :=
  match stored with
  | some ts =>
      let recent := ts.filter (fun t => now - t < WINDOW)
      if MAX ≤ recent.length then (none, ts)
      else (some handler, recent ++ [now])
  | none => (some handler, [now])

/-- The limiter behaviour described by claim C1 (spec section 4.1),
written from the claim's words for comparison with `rate_limit`, which
is translated from the source: filter the stored timestamps (an absent
user stores nothing) to those strictly inside the window, reject without
recording when the filtered count reaches `MAX`, otherwise append `now`
to the filtered list and run the handler. -/
def rate_limit_claimed {α : Type} (MAX : ℕ) (WINDOW : ℚ) (handler : α)
    (stored : Option (List ℚ)) (now : ℚ) : Option α × List ℚ :=
  let ts := stored.getD []
  let recent := ts.filter (fun t => now - t < WINDOW)
  if MAX ≤ recent.length then (none, ts)
  else (some handler, recent ++ [now])

/-! ## Price lookup client (src/aget_tg.py lines 69-101; identical in
src/aget_tg_v1.py lines 63-95). -/

/-- Python dict lookup: `d[k]` returns the value when `k in d`, `none`
otherwise.  Used for the parsed quote-service JSON object and for the
internal table of the lru cache. -/
def dictGet {β : Type} (d : List (List Nat × β)) (k : List Nat) : Option β :=
  match d with
  | [] => none
  | (k2, v) :: rest => if k2 = k then some v else dictGet rest k

/-- Body of `get_cached_crypto_prices` without its `lru_cache` wrapper
(src/aget_tg.py lines 70-81): issue the HTTP GET to the quote service
with `ids = crypto_ids`, `vs_currencies = usd` (modelled by the oracle
`http`); a `requests.RequestException` (network error, or the
`raise_for_status` of a non-success status) is caught, logged and turned
into the empty JSON object `{}`. -/
def get_cached_crypto_prices_raw
    (http : List Nat → Except Unit (List (List Nat × ℚ)))
    (crypto_ids : List Nat) : List (List Nat × ℚ) :=
  match http crypto_ids with
  | .ok j => j
  | .error _ => []

/-- Capacity of the `functools.lru_cache(maxsize=100)` wrapper on
`get_cached_crypto_prices`. -/
def CACHE_MAXSIZE : ℕ := 100

/-- Remove the entry with key `k` (if present) from the cache list. -/
def eraseKey {β : Type} : List (List Nat × β) → List Nat → List (List Nat × β)
  | [], _ => []
  | (k2, v) :: rest, k => if k2 = k then rest else (k2, v) :: eraseKey rest k

/-- One call through the `functools.lru_cache(maxsize=100)` wrapper: the
cache is an association list kept in most-recently-used-first order.  A
hit moves the entry to the front and does not run the wrapped function;
a miss runs it, inserts the result at the front, and evicts the
least-recently-used entry when the capacity is exceeded.  Returns the
value, the new cache, and whether the wrapped function ran. -/
def lruGet {β : Type} (f : List Nat → β) (cache : List (List Nat × β))
    (k : List Nat) : β × List (List Nat × β) × Bool :=
  match dictGet cache k with
  | some v => (v, (k, v) :: eraseKey cache k, false)
  | none =>
      let v := f k
      let c2 := (k, v) :: cache
      (v, if CACHE_MAXSIZE < c2.length then c2.dropLast else c2, true)

/-- Decimal digits of a natural number, as character codes. -/
def natDigits (n : ℕ) : List Nat := (Nat.toDigits 10 n).map Char.toNat

/-- Rendering of a signed number of cents with exactly two decimal
places. -/
def fmtCents (cents : ℤ) : List Nat :=
  (if cents < 0 then pystr r"-" else [])
    ++ natDigits (cents.natAbs / 100) ++ pystr r"."
    ++ [48 + cents.natAbs % 100 / 10, 48 + cents.natAbs % 10]

/-- The Python f-string fixed-point format `f"{price:.2f}"`, modelled on
rationals: round to the nearest cent, then render with exactly two
decimal places. -/
def formatPrice (price : ℚ) : List Nat := fmtCents ⌊price * 100 + 1 / 2⌋

/-- One reply line of `get_crypto_prices`:
`f"{crypto_id.upper()}: ${price:.2f} USD"` (at this point `crypto_id`
has already been lowercased by the caller's loop). -/
def priceLine (crypto_id : List Nat) (price : ℚ) : List Nat :=
  pyUpper crypto_id ++ pystr r": $" ++ formatPrice price ++ pystr r" USD"

/-- `get_crypto_prices` (src/aget_tg.py lines 84-101).  `fetch` stands
for the call to the lru-cached `get_cached_crypto_prices` (a total
function: the wrapped body absorbs its own failures into `{}`, so the
enclosing `except Exception` branch returning `"Price lookup failed."`
is unreachable in the model).  The ids are joined with commas and
lowercased to form the cache key; each originally requested id (lowered)
found in the fetched data contributes one formatted line; the lines are
joined with newlines, and `"No prices found."` is returned when no id
matched. -/
def get_crypto_prices (fetch : List Nat → List (List Nat × ℚ))
    (crypto_ids : List (List Nat)) : List Nat :=
  let crypto_str := pyLower (List.intercalate (pystr r",") crypto_ids)
  let data := fetch crypto_str
  let prices := crypto_ids.filterMap (fun cid =>
    (dictGet data (pyLower cid)).map (fun price => priceLine (pyLower cid) price))
  if prices = [] then pystr r"No prices found."
  else List.intercalate [10] prices

/-- A quote-service oracle for which every request fails. -/
def httpDown : List Nat → Except Unit (List (List Nat × ℚ)) :=
  fun _ => .error ()

/-! ## Assistant query client (`ask_gemini`, src/aget_tg.py lines
104-128). -/

/-- The fixed system instruction of `ask_gemini` (the concatenation of
the adjacent string literals in the source; identical in both
variants). -/
def system_prompt : List Nat :=
  pystr r"You are AgET_TG, a friendly and knowledgeable AI assistant specializing in cryptocurrency, blockchain development and web3 technologies. Your goal is to educate users and developers, provide accurate information, and assist with crypto-related queries. Always respond in a clear, concise, and engaging manner. If a user asks about cryptocurrency prices, fetch the latest data. For educational questions, explain concepts in simple terms with examples. Be proactive in suggesting related topics or resources. Remember to maintain a professional yet approachable tone."

/-- `ask_gemini` (src/aget_tg.py lines 104-128).  `gen` models
`model.generate_content` followed by `.text`: it either returns the
generated text or fails with an exception.  The first component is the
returned string; the second lists the prompts actually submitted to the
generation service during the call (empty when validation rejects the
question, a single composed prompt otherwise).  An empty question is
falsy in Python, hence the `question = []` disjunct. -/
def ask_gemini (gen : List Nat → Except Unit (List Nat))
    (question : List Nat) : List Nat × List (List Nat) :=
  if question = [] ∨ 1000 < question.length then
    (pystr r"Invalid query length.", [])
  else
    match gen (system_prompt ++ [10, 10] ++ pystr r"User: " ++ question) with
    | .ok t => (t, [system_prompt ++ [10, 10] ++ pystr r"User: " ++ question])
    | .error _ => (pystr r"Query processing failed.",
        [system_prompt ++ [10, 10] ++ pystr r"User: " ++ question])

/-! ## Claim C3: reply formatting of the price client. -/

/-! ## Message router (`handle_message`, src/aget_tg.py lines 158-171;
identical in src/aget_tg_v1.py lines 158-171). -/

/-- Python `str.split(sep)` for a non-empty separator `a :: sp`: find
the first occurrence of the separator, emit the piece before it, and
continue after it. -/
def pySplitNE (a : Nat) (sp : List Nat) : List Nat → List (List Nat)
  | [] => [[]]
  | c :: rest =>
      if (a :: sp).isPrefixOf (c :: rest) then
        [] :: pySplitNE a sp (rest.drop sp.length)
      else
        match pySplitNE a sp rest with
        | [] => [[c]]
        | h :: t => (c :: h) :: t
termination_by s => s.length
decreasing_by
  all_goals simp only [List.length_drop, List.length_cons]
  all_goals omega

/-- Python `str.split(sep)`.  The source only splits on the non-empty
separators `"price of"` and `","`; Python raises on an empty separator,
so the `[]` case is arbitrary. -/
def pySplit (sep s : List Nat) : List (List Nat) :=
  match sep with
  | [] => [s]
  | a :: sp => pySplitNE a sp s

/-- The Python `in` operator on strings (substring containment). -/
def pyContains (sep : List Nat) : List Nat → Bool
  | [] => sep.isEmpty
  | c :: rest => sep.isPrefixOf (c :: rest) || pyContains sep rest

/-- The literal `"price of"` the router scans for. -/
def priceOfMarker : List Nat := pystr r"price of"

/-- `handle_message` (src/aget_tg.py lines 158-171): lowercase the
message text; when it contains `"price of"`, take the last piece of the
split on that marker, strip it, split it on commas, strip and lowercase
each token and dispatch the token list to the price client `getPrices`;
otherwise dispatch the whole lowercased text to the assistant client
`askG`.  The reply sent to the user is the dispatched client's string,
unchanged. -/
def handle_message (getPrices : List (List Nat) → List Nat)
    (askG : List Nat → List Nat) (text : List Nat) : List Nat :=
  let user_message := pyLower text
  if pyContains priceOfMarker user_message then
    let crypto_names := pySplit (pystr r",")
      (pyStrip ((pySplit priceOfMarker user_message).getLastD []))
    getPrices (crypto_names.map (fun n => pyLower (pyStrip n)))
  else
    askG user_message

/-- The router behaviour described by claim C2, written from the claim's
words for comparison with `handle_message`, which is translated from the
source: the identifier list is everything after the last occurrence of
`"price of"` in the lowercased text, split on commas, each token
whitespace-trimmed and lowercased — without the extra strip of the whole
tail that the code performs before splitting. -/
def handle_message_claimed (getPrices : List (List Nat) → List Nat)
    (askG : List Nat → List Nat) (text : List Nat) : List Nat :=
  let user_message := pyLower text
  if pyContains priceOfMarker user_message then
    getPrices ((pySplit (pystr r",")
      ((pySplit priceOfMarker user_message).getLastD [])).map
        (fun n => pyLower (pyStrip n)))
  else
    askG user_message

/-! ## Polling variant (src/aget_tg_v1.py).  The core functions are
transcribed separately from that file; their bodies coincide with the
webhook variant except for the failure string of `ask_gemini`. -/

/-- Per-user step of the `rate_limit` decorator of src/aget_tg_v1.py
(lines 37-60). -/
def rate_limit_v1 {α : Type} (MAX : ℕ) (WINDOW : ℚ) (handler : α)
    (stored : Option (List ℚ)) (now : ℚ) : Option α × List ℚ :=
  match stored with
  | some ts =>
      let recent := ts.filter (fun t => now - t < WINDOW)
      if MAX ≤ recent.length then (none, ts)
      else (some handler, recent ++ [now])
  | none => (some handler, [now])

/-- Body of `get_cached_crypto_prices` of src/aget_tg_v1.py (lines
63-75) without its `lru_cache` wrapper. -/
def get_cached_crypto_prices_v1_raw
    (http : List Nat → Except Unit (List (List Nat × ℚ)))
    (crypto_ids : List Nat) : List (List Nat × ℚ) :=
  match http crypto_ids with
  | .ok j => j
  | .error _ => []

/-- `get_crypto_prices` of src/aget_tg_v1.py (lines 78-95). -/
def get_crypto_prices_v1 (fetch : List Nat → List (List Nat × ℚ))
    (crypto_ids : List (List Nat)) : List Nat :=
  let crypto_str := pyLower (List.intercalate (pystr r",") crypto_ids)
  let data := fetch crypto_str
  let prices := crypto_ids.filterMap (fun cid =>
    (dictGet data (pyLower cid)).map (fun price => priceLine (pyLower cid) price))
  if prices = [] then pystr r"No prices found."
  else List.intercalate [10] prices

/-- `ask_gemini` of src/aget_tg_v1.py (lines 98-126): same validation,
same system instruction and prompt as the webhook variant, but the
exception branch returns "Gemini query processing failed." instead. -/
def ask_gemini_v1 (gen : List Nat → Except Unit (List Nat))
    (question : List Nat) : List Nat × List (List Nat) :=
  if question = [] ∨ 1000 < question.length then
    (pystr r"Invalid query length.", [])
  else
    match gen (system_prompt ++ [10, 10] ++ pystr r"User: " ++ question) with
    | .ok t => (t, [system_prompt ++ [10, 10] ++ pystr r"User: " ++ question])
    | .error _ => (pystr r"Gemini query processing failed.",
        [system_prompt ++ [10, 10] ++ pystr r"User: " ++ question])

/-- `handle_message` of src/aget_tg_v1.py (lines 158-171). -/
def handle_message_v1 (getPrices : List (List Nat) → List Nat)
    (askG : List Nat → List Nat) (text : List Nat) : List Nat :=
  let user_message := pyLower text
  if pyContains priceOfMarker user_message then
    let crypto_names := pySplit (pystr r",")
      (pyStrip ((pySplit priceOfMarker user_message).getLastD []))
    getPrices (crypto_names.map (fun n => pyLower (pyStrip n)))
  else
    askG user_message

/-- A generation-service oracle that always fails. -/
def genDown : List Nat → Except Unit (List Nat) := fun _ => .error ()

/-! ## Theorems: helper lemmas, then one theorem (with witness or
counterexample where required) per claim C1-C10. -/

/-- C1 counterexample: with `MAX_REQUESTS_PER_WINDOW = 0` a user with no
stored timestamps has a filtered count (0) that already reaches the
maximum, so the claimed behaviour rejects; the code's separate
first-request branch accepts and records the timestamp instead. -/
theorem c1_counterexample :
    rate_limit 0 1 (0 : ℕ) none 0 ≠ rate_limit_claimed 0 1 (0 : ℕ) none 0 := by
  simp [rate_limit, rate_limit_claimed]

/-- C1 (amended): for every user already present in the limiter's map the
limiter behaves exactly as the claim states (filter strictly to the
window, reject without touching the stored list when the filtered count
reaches `MAX`, otherwise append `now` to the filtered list and invoke
the handler); whenever `MAX ≥ 1` this extends to absent users as well;
an absent user is always accepted and recorded as the singleton `[now]`,
with no comparison against `MAX`. -/
theorem c1_amended {α : Type} (MAX : ℕ) (WINDOW : ℚ) (handler : α) (now : ℚ) :
    (∀ ts : List ℚ,
      rate_limit MAX WINDOW handler (some ts) now
        = rate_limit_claimed MAX WINDOW handler (some ts) now)
    ∧ (1 ≤ MAX → ∀ stored : Option (List ℚ),
      rate_limit MAX WINDOW handler stored now
        = rate_limit_claimed MAX WINDOW handler stored now)
    ∧ rate_limit MAX WINDOW handler none now = (some handler, [now]) := by
  refine ⟨fun ts => rfl, fun hM stored => ?_, rfl⟩
  match stored with
  | some ts => rfl
  | none =>
      have h0 : ¬ MAX ≤ 0 := by omega
      simp [rate_limit, rate_limit_claimed, h0]

/-- C1 amended, witness: evaluation at `MAX = 1`, window 60, a stored
list `[0, 100]` and `now = 110` (code and claimed behaviour agree), and
at the same parameters for an absent user. -/
theorem c1_amended_witness :
    (rate_limit 1 60 (0 : ℕ) (some [0, 100]) 110
      = rate_limit_claimed 1 60 (0 : ℕ) (some [0, 100]) 110)
    ∧ rate_limit 1 60 (0 : ℕ) none 110 = (some 0, [110]) := by
  exact ⟨(c1_amended 1 60 0 110).2.1 (by decide) (some [0, 100]),
    (c1_amended 1 60 0 110).2.2⟩

/-- C4 counterexample: a rejected check does not write the filtered list
back, so the stale timestamp `0` is still stored even though it is 110
seconds old while the window is 60 seconds (here `MAX = 1`, stored
`[0, 100]`, `now = 110`: the filtered count is 1, so the check rejects
and leaves `[0, 100]` in place). -/
theorem c4_counterexample :
    (0 : ℚ) ∈ (rate_limit 1 60 (0 : ℕ) (some [0, 100]) 110).2
    ∧ ¬ ((110 : ℚ) - 0 ≤ 60) := by
  have h2 : (rate_limit 1 60 (0 : ℕ) (some [0, 100]) 110).2 = [0, 100] := by
    norm_num [rate_limit, List.filter]
  rw [h2]
  norm_num

/-- C4 (amended): for a positive window, after every ACCEPTED check every
retained timestamp is strictly within `RATE_LIMIT_WINDOW` seconds of the
evaluation time; a REJECTED check leaves the stored sequence unchanged,
so entries older than the window may remain there until the next
accepted check. -/
theorem c4_amended {α : Type} (MAX : ℕ) (WINDOW : ℚ) (handler : α)
    (stored : Option (List ℚ)) (now : ℚ) (hW : 0 < WINDOW) :
    ((rate_limit MAX WINDOW handler stored now).1.isSome = true →
      ∀ t ∈ (rate_limit MAX WINDOW handler stored now).2, now - t < WINDOW)
    ∧ ((rate_limit MAX WINDOW handler stored now).1 = none →
      (rate_limit MAX WINDOW handler stored now).2 = stored.getD []) := by
  match stored with
  | none =>
      refine ⟨fun _ t ht => ?_, fun h => by simp [rate_limit] at h⟩
      simp only [rate_limit, List.mem_singleton] at ht
      simpa [ht] using hW
  | some ts =>
      simp only [rate_limit, Option.getD_some]
      by_cases hlen : MAX ≤ (ts.filter (fun t => now - t < WINDOW)).length
      · simp [hlen]
      · simp only [hlen, if_false]
        refine ⟨fun _ t ht => ?_, fun h => by simp at h⟩
        rcases List.mem_append.mp ht with hmem | hmem
        · exact of_decide_eq_true (List.mem_filter.mp hmem).2
        · simp only [List.mem_singleton] at hmem
          simpa [hmem] using hW

/-- C4 amended, witness: an accepted check at window 60, stored `[100]`,
`now = 110` retains only in-window timestamps, and the rejected check at
stored `[0, 100]`, `MAX = 1` leaves the stored list unchanged. -/
theorem c4_amended_witness :
    (∀ t ∈ (rate_limit 10 60 (0 : ℕ) (some [100]) 110).2, (110 : ℚ) - t < 60)
    ∧ (rate_limit 1 60 (0 : ℕ) (some [0, 100]) 110).2 = [0, 100] := by
  constructor
  · exact fun t ht =>
      (c4_amended 10 60 0 (some [100]) 110 (by norm_num)).1
        (by norm_num [rate_limit, List.filter]) t ht
  · exact (c4_amended 1 60 0 (some [0, 100]) 110 (by norm_num)).2
      (by norm_num [rate_limit, List.filter])

/-- C9: a user with no entry in `request_times` takes the `else` branch
of the wrapper, so the first evaluated request is always accepted and
recorded as `[now]` and the handler runs — for every value of
`MAX_REQUESTS_PER_WINDOW`, including 0, since no comparison happens on
this branch. -/
theorem c9_first_request_always_accepted {α : Type} (MAX : ℕ) (WINDOW : ℚ)
    (handler : α) (now : ℚ) :
    rate_limit MAX WINDOW handler none now = (some handler, [now]) := rfl

/-- After any `lruGet`, the looked-up key sits at the front of the new
cache, bound to the returned value. -/
theorem lruGet_front {β : Type} (f : List Nat → β)
    (cache : List (List Nat × β)) (k : List Nat) :
    ∃ rest, (lruGet f cache k).2.1 = (k, (lruGet f cache k).1) :: rest := by
  unfold lruGet
  cases hd : dictGet cache k with
  | some v => exact ⟨eraseKey cache k, rfl⟩
  | none =>
      by_cases hlen : CACHE_MAXSIZE < ((k, f k) :: cache).length
      · refine ⟨cache.dropLast, ?_⟩
        show (if CACHE_MAXSIZE < ((k, f k) :: cache).length
            then ((k, f k) :: cache).dropLast else (k, f k) :: cache)
          = (k, f k) :: cache.dropLast
        rw [if_pos hlen]
        match cache, hlen with
        | c0 :: cs, _ => exact List.dropLast_cons₂
        | [], hlen => norm_num [CACHE_MAXSIZE] at hlen
      · refine ⟨cache, ?_⟩
        show (if CACHE_MAXSIZE < ((k, f k) :: cache).length
            then ((k, f k) :: cache).dropLast else (k, f k) :: cache)
          = (k, f k) :: cache
        rw [if_neg hlen]

/-- A `lruGet` on a cache whose front entry is `(k, v)` is a hit: it
returns `v` and does not run the wrapped function. -/
theorem lruGet_hit_front {β : Type} (f : List Nat → β) (v : β)
    (rest : List (List Nat × β)) (k : List Nat) :
    lruGet f ((k, v) :: rest) k = (v, (k, v) :: rest, false) := by
  simp [lruGet, dictGet, eraseKey]

/-- C5: the price cache is an exact-match cache over the comma-joined
lowercased identifier string — the key built for `[btc, eth]` differs
from the key built for `[eth, btc]` — and a repeated lookup with the
same key is served from the cache: the second call returns the value of
the first and does not run the wrapped fetch (no second network
request). -/
theorem c5_cache_exact_match_and_idempotent :
    pyLower (List.intercalate (pystr r",") [pystr r"btc", pystr r"eth"])
      ≠ pyLower (List.intercalate (pystr r",") [pystr r"eth", pystr r"btc"])
    ∧ ∀ (f : List Nat → List (List Nat × ℚ))
        (cache : List (List Nat × List (List Nat × ℚ))) (k : List Nat),
        (lruGet f ((lruGet f cache k).2.1) k).1 = (lruGet f cache k).1
        ∧ (lruGet f ((lruGet f cache k).2.1) k).2.2 = false := by
  constructor
  · decide
  · intro f cache k
    obtain ⟨rest, hfront⟩ := lruGet_front f cache k
    rw [hfront, lruGet_hit_front]
    exact ⟨rfl, rfl⟩

/-- C10: a failed fetch for a key stores the empty mapping in the cache
like any successful result.  On a cache miss of `k` with the HTTP call
failing, the call returns `{}`, runs the wrapped function, and leaves
`(k, {})` cached; and while a `(k, {})` entry is present (front-most
match for `k`, i.e. not yet evicted by the capacity-100 LRU policy),
every lookup of `k` returns `{}` without running the wrapped function
again. -/
theorem c10_failed_fetch_cached
    (http : List Nat → Except Unit (List (List Nat × ℚ))) (k : List Nat)
    (hfail : http k = .error ()) :
    (∀ cache, dictGet cache k = none →
      (lruGet (get_cached_crypto_prices_raw http) cache k).1 = []
      ∧ dictGet (lruGet (get_cached_crypto_prices_raw http) cache k).2.1 k
          = some []
      ∧ (lruGet (get_cached_crypto_prices_raw http) cache k).2.2 = true)
    ∧ (∀ cache, dictGet cache k = some [] →
      lruGet (get_cached_crypto_prices_raw http) cache k
        = ([], (k, []) :: eraseKey cache k, false)) := by
  have hraw : get_cached_crypto_prices_raw http k = [] := by
    simp [get_cached_crypto_prices_raw, hfail]
  constructor
  · intro cache hmiss
    have h1 : (lruGet (get_cached_crypto_prices_raw http) cache k).1 = [] := by
      simp [lruGet, hmiss, hraw]
    refine ⟨h1, ?_, by simp [lruGet, hmiss]⟩
    obtain ⟨rest, hfront⟩ :=
      lruGet_front (get_cached_crypto_prices_raw http) cache k
    rw [hfront, h1]
    simp [dictGet]
  · intro cache hhit
    simp [lruGet, hhit]

/-- C10 witness: with the always-failing oracle and an empty cache, the
first lookup of "btc" returns `{}` and caches it, and the repeated
lookup is a cache hit returning `{}` without running the fetch. -/
theorem c10_witness :
    (lruGet (get_cached_crypto_prices_raw httpDown) [] (pystr r"btc")).1 = []
    ∧ lruGet (get_cached_crypto_prices_raw httpDown)
        ((lruGet (get_cached_crypto_prices_raw httpDown) [] (pystr r"btc")).2.1)
        (pystr r"btc")
      = ([], [(pystr r"btc", [])], false) := by
  have h := c10_failed_fetch_cached httpDown (pystr r"btc") rfl
  refine ⟨(h.1 [] rfl).1, ?_⟩
  have hc : (lruGet (get_cached_crypto_prices_raw httpDown) [] (pystr r"btc")).2.1
      = [(pystr r"btc", [])] := by
    simp [lruGet, dictGet, get_cached_crypto_prices_raw, httpDown, CACHE_MAXSIZE]
  rw [hc]
  simpa [eraseKey] using h.2 [(pystr r"btc", [])] (by simp [dictGet])

/-- C7: when the HTTP GET for the joined key fails, the raw lookup
returns the empty mapping (the exception is absorbed inside
`get_cached_crypto_prices`), and `get_crypto_prices` consequently finds
no identifier in the data and returns exactly "No prices found." -/
theorem c7_http_failure_absorbed
    (http : List Nat → Except Unit (List (List Nat × ℚ)))
    (ids : List (List Nat))
    (hfail : http (pyLower (List.intercalate (pystr r",") ids)) = .error ()) :
    get_cached_crypto_prices_raw http
        (pyLower (List.intercalate (pystr r",") ids)) = []
    ∧ get_crypto_prices (get_cached_crypto_prices_raw http) ids
        = pystr r"No prices found." := by
  have h1 : get_cached_crypto_prices_raw http
      (pyLower (List.intercalate (pystr r",") ids)) = [] := by
    simp [get_cached_crypto_prices_raw, hfail]
  refine ⟨h1, ?_⟩
  have h2 : ids.filterMap (fun cid =>
      (dictGet ([] : List (List Nat × ℚ)) (pyLower cid)).map
        (fun price => priceLine (pyLower cid) price)) = [] := by
    rw [List.filterMap_eq_nil_iff]
    intro a _
    simp [dictGet]
  simp only [get_crypto_prices, h1, h2, if_pos]

/-- C7 witness: evaluation at the always-failing oracle and the request
list `["btc"]`. -/
theorem c7_http_failure_absorbed_witness :
    get_cached_crypto_prices_raw httpDown
        (pyLower (List.intercalate (pystr r",") [pystr r"btc"])) = []
    ∧ get_crypto_prices (get_cached_crypto_prices_raw httpDown) [pystr r"btc"]
        = pystr r"No prices found." :=
  c7_http_failure_absorbed httpDown [pystr r"btc"] rfl

/-- C6: an empty question or one longer than 1000 characters yields
exactly "Invalid query length." and no generation request is made; any
other question causes exactly one generation request, whose prompt is
the fixed system instruction prepended (followed by two newlines and
"User: ") to the question. -/
theorem c6_query_length_validation (gen : List Nat → Except Unit (List Nat))
    (question : List Nat) :
    (question = [] ∨ 1000 < question.length →
      ask_gemini gen question = (pystr r"Invalid query length.", []))
    ∧ (¬ (question = [] ∨ 1000 < question.length) →
      (ask_gemini gen question).2
        = [system_prompt ++ [10, 10] ++ pystr r"User: " ++ question]) := by
  constructor
  · intro h
    simp [ask_gemini, h]
  · intro h
    rw [ask_gemini, if_neg h]
    cases gen (system_prompt ++ [10, 10] ++ pystr r"User: " ++ question) <;> rfl

/-- C6 witness: a 1001-character question is rejected with no generation
call, and a short question triggers a single generation request carrying
the prepended system instruction. -/
theorem c6_query_length_validation_witness :
    ask_gemini (fun _ => Except.ok []) (List.replicate 1001 97)
      = (pystr r"Invalid query length.", [])
    ∧ (ask_gemini (fun _ => Except.ok []) (pystr r"hi")).2
      = [system_prompt ++ [10, 10] ++ pystr r"User: " ++ pystr r"hi"] := by
  constructor
  · exact (c6_query_length_validation (fun _ => Except.ok [])
      (List.replicate 1001 97)).1 (Or.inr (by simp))
  · exact (c6_query_length_validation (fun _ => Except.ok [])
      (pystr r"hi")).2 (by decide)

/-- Uppercasing after lowercasing agrees with plain uppercasing on one
code point. -/
theorem pyUpperChar_pyLowerChar (c : Nat) :
    pyUpperChar (pyLowerChar c) = pyUpperChar c := by
  unfold pyUpperChar pyLowerChar
  split_ifs <;> omega

/-- Uppercasing after lowercasing agrees with plain uppercasing. -/
theorem pyUpper_pyLower (s : List Nat) : pyUpper (pyLower s) = pyUpper s := by
  unfold pyUpper pyLower
  rw [List.map_map]
  exact List.map_congr_left (fun c _ => pyUpperChar_pyLowerChar c)

/-- The accumulation loop of `get_crypto_prices` keeps, in input order,
one line per requested identifier found in the data. -/
theorem filterMap_priceLine (data : List (List Nat × ℚ))
    (l : List (List Nat)) :
    l.filterMap (fun cid =>
        (dictGet data (pyLower cid)).map
          (fun price => priceLine (pyLower cid) price))
      = (l.filter (fun cid => (dictGet data (pyLower cid)).isSome)).map
          (fun cid => priceLine (pyLower cid)
            ((dictGet data (pyLower cid)).getD 0)) := by
  induction l with
  | nil => rfl
  | cons a l ih =>
      cases hd : dictGet data (pyLower a) with
      | none => simpa [List.filterMap_cons, List.filter_cons, hd] using ih
      | some p => simpa [List.filterMap_cons, List.filter_cons, hd] using ih

/-- Evaluation of the fixed-point format at the claim's example price. -/
theorem formatPrice_example :
    formatPrice (42000.5 : ℚ) = pystr r"42000.50" := by
  show fmtCents ⌊(42000.5 : ℚ) * 100 + 1 / 2⌋ = pystr r"42000.50"
  have hc : (⌊(42000.5 : ℚ) * 100 + 1 / 2⌋ : ℤ) = 4200050 := by
    rw [Int.floor_eq_iff]
    constructor <;> norm_num
  rw [hc]
  decide

/-- C3: the price client's reply has one line per originally requested
identifier present in the fetched data, in input order, each line being
the uppercased identifier, ": $", the price with exactly two decimal
places, and " USD", joined by newlines; when nothing matched it is the
literal "No prices found."; and on the data
`{"bitcoin": {"usd": 42000.5}}` with request `["bitcoin"]` it is exactly
"BITCOIN: $42000.50 USD". -/
theorem c3_price_reply_format :
    (∀ (fetch : List Nat → List (List Nat × ℚ))
       (crypto_ids : List (List Nat)),
      get_crypto_prices fetch crypto_ids
        = (let data := fetch (pyLower (List.intercalate (pystr r",") crypto_ids))
           let matched := crypto_ids.filter
             (fun cid => (dictGet data (pyLower cid)).isSome)
           if matched = [] then pystr r"No prices found."
           else List.intercalate [10] (matched.map (fun cid =>
             pyUpper cid ++ pystr r": $"
               ++ formatPrice ((dictGet data (pyLower cid)).getD 0)
               ++ pystr r" USD"))))
    ∧ get_crypto_prices (fun _ => [(pystr r"bitcoin", (42000.5 : ℚ))])
        [pystr r"bitcoin"]
      = pystr r"BITCOIN: $42000.50 USD" := by
  have hline : ∀ (cid : List Nat) (v : ℚ),
      priceLine (pyLower cid) v
        = pyUpper cid ++ pystr r": $" ++ formatPrice v ++ pystr r" USD" := by
    intro cid v
    rw [priceLine, pyUpper_pyLower]
  constructor
  · intro fetch crypto_ids
    simp only [get_crypto_prices]
    rw [filterMap_priceLine]
    simp only [List.map_eq_nil_iff, hline]
  · have hk : pyLower (pystr r"bitcoin") = pystr r"bitcoin" := by decide
    have hp : [pystr r"bitcoin"].filterMap (fun cid =>
        (dictGet [(pystr r"bitcoin", (42000.5 : ℚ))] (pyLower cid)).map
          (fun price => priceLine (pyLower cid) price))
        = [priceLine (pystr r"bitcoin") (42000.5 : ℚ)] := by
      simp [hk, dictGet]
    have hfinal : priceLine (pystr r"bitcoin") (42000.5 : ℚ)
        = pystr r"BITCOIN: $42000.50 USD" := by
      rw [priceLine, formatPrice_example]
      decide
    simp only [get_crypto_prices]
    rw [hp, if_neg (by simp)]
    simpa [List.intercalate] using hfinal

/-- Splitting the empty string gives one empty piece. -/
theorem pySplitNE_nil (a : Nat) (sp : List Nat) : pySplitNE a sp [] = [[]] := by
  simp [pySplitNE]

/-- A single-character split never returns the empty list of pieces. -/
theorem pySplitNE_ne_nil (c : Nat) (s : List Nat) : pySplitNE c [] s ≠ [] := by
  induction s with
  | nil => simp [pySplitNE]
  | cons a r ih =>
      rw [pySplitNE]
      by_cases hp : (c :: ([] : List Nat)).isPrefixOf (a :: r)
      · simp [hp]
      · rw [if_neg hp]
        cases hps : pySplitNE c [] r with
        | nil => simp
        | cons h t => simp

/-- Single-character split at a separator character. -/
theorem pySplitNE_cons_eq (c : Nat) (r : List Nat) :
    pySplitNE c [] (c :: r) = [] :: pySplitNE c [] r := by
  rw [pySplitNE]
  simp [List.isPrefixOf]

/-- Single-character split at a non-separator character. -/
theorem pySplitNE_cons_ne (c a : Nat) (r : List Nat) (h : a ≠ c) :
    pySplitNE c [] (a :: r)
      = (a :: (pySplitNE c [] r).headI) :: (pySplitNE c [] r).tail := by
  rw [pySplitNE]
  have hp : ¬ (c :: ([] : List Nat)).isPrefixOf (a :: r) := by
    simp [List.isPrefixOf]
    exact fun he => absurd he.symm h
  rw [if_neg hp]
  cases hps : pySplitNE c [] r with
  | nil => exact absurd hps (pySplitNE_ne_nil c r)
  | cons h0 t0 => simp

/-- Stripping ignores a leading whitespace character. -/
theorem pyStrip_cons_space (a : Nat) (h : List Nat) (ha : pyIsSpace a = true) :
    pyStrip (a :: h) = pyStrip h := by
  simp [pyStrip, lstrip, List.dropWhile_cons, ha]

/-- Trailing-whitespace removal absorbs a final whitespace character. -/
theorem rstrip_append_space (b : Nat) (x : List Nat) (hb : pyIsSpace b = true) :
    rstrip (x ++ [b]) = rstrip x := by
  simp [rstrip, List.reverse_append, List.dropWhile_cons, hb]

/-- Trailing-whitespace removal keeps a final non-whitespace character. -/
theorem rstrip_append_nonspace (b : Nat) (x : List Nat)
    (hb : pyIsSpace b = false) :
    rstrip (x ++ [b]) = x ++ [b] := by
  simp [rstrip, List.reverse_append, List.dropWhile_cons, hb]

/-- How leading-whitespace removal passes through an append. -/
theorem lstrip_append (h x : List Nat) :
    lstrip (h ++ x) = if lstrip h = [] then lstrip x else lstrip h ++ x := by
  induction h with
  | nil => simp [lstrip]
  | cons b t ih =>
      by_cases hb : pyIsSpace b = true
      · simpa [lstrip, List.dropWhile_cons, hb] using ih
      · simp [lstrip, List.dropWhile_cons, hb]

/-- Stripping ignores a trailing whitespace character. -/
theorem pyStrip_append_space (b : Nat) (h : List Nat)
    (hb : pyIsSpace b = true) :
    pyStrip (h ++ [b]) = pyStrip h := by
  unfold pyStrip
  rw [lstrip_append]
  by_cases hl : lstrip h = []
  · rw [if_pos hl, hl]
    simp [lstrip, List.dropWhile_cons, hb, rstrip]
  · rw [if_neg hl]
    exact rstrip_append_space b (lstrip h) hb

/-- How a single-character split treats a trailing character. -/
theorem pySplitNE_append_single (c b : Nat) (t : List Nat) :
    pySplitNE c [] (t ++ [b])
      = if b = c then pySplitNE c [] t ++ [[]]
        else (pySplitNE c [] t).dropLast
          ++ [(pySplitNE c [] t).getLastD [] ++ [b]] := by
  induction t with
  | nil =>
      by_cases hb : b = c
      · subst hb
        rw [List.nil_append, pySplitNE_cons_eq, pySplitNE_nil, if_pos rfl]
        rfl
      · rw [List.nil_append, pySplitNE_cons_ne c b [] hb, pySplitNE_nil,
          if_neg hb]
        rfl
  | cons x t ih =>
      by_cases hx : x = c
      · rw [List.cons_append, hx, pySplitNE_cons_eq, pySplitNE_cons_eq, ih]
        by_cases hb : b = c
        · rw [if_pos hb, if_pos hb]
          rfl
        · rw [if_neg hb, if_neg hb]
          cases hS : pySplitNE c [] t with
          | nil => exact absurd hS (pySplitNE_ne_nil c t)
          | cons h0 t0 => simp [List.getLastD_cons]
      · rw [List.cons_append, pySplitNE_cons_ne c x (t ++ [b]) hx,
          pySplitNE_cons_ne c x t hx, ih]
        cases hS : pySplitNE c [] t with
        | nil => exact absurd hS (pySplitNE_ne_nil c t)
        | cons h0 t0 =>
            by_cases hb : b = c
            · rw [if_pos hb, if_pos hb]
              cases t0 <;> simp
            · rw [if_neg hb, if_neg hb]
              cases t0 with
              | nil => simp [List.getLastD_cons]
              | cons u t1 => simp [List.getLastD_cons]

/-- A map over a non-empty list, split as the map over its front part
followed by the image of its last element. -/
theorem map_dropLast_getLastD {X Y : Type} (f : X → Y) (d : X) :
    ∀ S : List X, S ≠ [] → S.map f = S.dropLast.map f ++ [f (S.getLastD d)]
  | [], h => absurd rfl h
  | [a], _ => rfl
  | a :: b :: S, _ => by
      have ih := map_dropLast_getLastD f d (b :: S) (by simp)
      simp only [List.dropLast_cons₂, List.getLastD_cons, List.map_cons,
        List.cons_append] at ih ⊢
      rw [ih]

/-- Token-wise stripping of a comma split ignores whitespace in front of
the whole string. -/
theorem mapStrip_split_cons_space (c a : Nat) (r : List Nat)
    (ha : pyIsSpace a = true) (hc : pyIsSpace c = false) :
    (pySplitNE c [] (a :: r)).map pyStrip
      = (pySplitNE c [] r).map pyStrip := by
  have hne : a ≠ c := by
    intro he
    rw [he, hc] at ha
    exact Bool.false_ne_true ha
  rw [pySplitNE_cons_ne c a r hne]
  cases hS : pySplitNE c [] r with
  | nil => exact absurd hS (pySplitNE_ne_nil c r)
  | cons h0 t0 =>
      simp only [List.headI, List.tail, List.map_cons]
      rw [pyStrip_cons_space a h0 ha]

/-- Token-wise stripping of a comma split ignores whitespace at the end
of the whole string. -/
theorem mapStrip_split_append_space (c b : Nat) (t : List Nat)
    (hb : pyIsSpace b = true) (hc : pyIsSpace c = false) :
    (pySplitNE c [] (t ++ [b])).map pyStrip
      = (pySplitNE c [] t).map pyStrip := by
  have hne : b ≠ c := by
    intro he
    rw [he, hc] at hb
    exact Bool.false_ne_true hb
  rw [pySplitNE_append_single c b t, if_neg hne, List.map_append,
    List.map_singleton, pyStrip_append_space b _ hb]
  exact (map_dropLast_getLastD pyStrip [] (pySplitNE c [] t)
    (pySplitNE_ne_nil c t)).symm

/-- Removing leading whitespace before a single-character split does not
change the stripped tokens. -/
theorem mapStrip_split_lstrip (c : Nat) (hc : pyIsSpace c = false) :
    ∀ t : List Nat,
      (pySplitNE c [] (lstrip t)).map pyStrip
        = (pySplitNE c [] t).map pyStrip
  | [] => rfl
  | a :: r => by
      by_cases ha : pyIsSpace a = true
      · rw [show lstrip (a :: r) = lstrip r by
            simp [lstrip, List.dropWhile_cons, ha]]
        rw [mapStrip_split_lstrip c hc r]
        exact (mapStrip_split_cons_space c a r ha hc).symm
      · rw [show lstrip (a :: r) = a :: r by
            simp [lstrip, List.dropWhile_cons, ha]]

/-- Removing trailing whitespace before a single-character split does
not change the stripped tokens. -/
theorem mapStrip_split_rstrip (c : Nat) (hc : pyIsSpace c = false)
    (t : List Nat) :
    (pySplitNE c [] (rstrip t)).map pyStrip
      = (pySplitNE c [] t).map pyStrip := by
  induction t using List.reverseRecOn with
  | nil => rfl
  | append_singleton xs b ih =>
      by_cases hb : pyIsSpace b = true
      · rw [rstrip_append_space b xs hb, ih,
          mapStrip_split_append_space c b xs hb hc]
      · rw [rstrip_append_nonspace b xs (by simpa using hb)]

/-- Stripping a string before a single-character split does not change
the stripped tokens. -/
theorem mapStrip_split_pyStrip (c : Nat) (hc : pyIsSpace c = false)
    (t : List Nat) :
    (pySplitNE c [] (pyStrip t)).map pyStrip
      = (pySplitNE c [] t).map pyStrip := by
  rw [show pyStrip t = rstrip (lstrip t) from rfl,
    mapStrip_split_rstrip c hc (lstrip t), mapStrip_split_lstrip c hc t]

/-- C2: the router lowercases the text; when it contains "price of" it
dispatches to the price client the tokens obtained from everything after
the last occurrence of that marker, split on commas, each token
whitespace-trimmed and lowercased (the code's extra strip of the whole
tail before splitting changes nothing, since every token is stripped);
otherwise it dispatches the full lowercased text to the assistant
client, returning the dispatched client's string unchanged in both
cases. -/
theorem c2_router_dispatch (getPrices : List (List Nat) → List Nat)
    (askG : List Nat → List Nat) (text : List Nat) :
    handle_message getPrices askG text
      = handle_message_claimed getPrices askG text := by
  simp only [handle_message, handle_message_claimed]
  by_cases hp : pyContains priceOfMarker (pyLower text) = true
  · rw [if_pos hp, if_pos hp]
    congr 1
    rw [show pystr r"," = [44] from rfl]
    simp only [pySplit]
    calc (pySplitNE 44 []
            (pyStrip ((pySplit priceOfMarker (pyLower text)).getLastD []))).map
          (fun n => pyLower (pyStrip n))
        = ((pySplitNE 44 []
            (pyStrip ((pySplit priceOfMarker (pyLower text)).getLastD []))).map
              pyStrip).map pyLower := by
          rw [List.map_map]
          rfl
      _ = ((pySplitNE 44 []
            ((pySplit priceOfMarker (pyLower text)).getLastD [])).map
              pyStrip).map pyLower := by
          rw [mapStrip_split_pyStrip 44 (by decide)]
      _ = (pySplitNE 44 []
            ((pySplit priceOfMarker (pyLower text)).getLastD [])).map
          (fun n => pyLower (pyStrip n)) := by
          rw [List.map_map]
          rfl
  · rw [if_neg hp, if_neg hp]

/-- C8 counterexample: on the valid question "hi" with the generation
call failing, the webhook variant's assistant client replies "Query
processing failed." while the polling variant's replies "Gemini query
processing failed.", so the two clients do not return the same result
for every input. -/
theorem c8_counterexample :
    ask_gemini genDown (pystr r"hi") ≠ ask_gemini_v1 genDown (pystr r"hi") := by
  decide

/-- C8 (amended): the rate limiter, the raw quote lookup, the price
client and the message router of the two variants are identical
functions, and the assistant query clients agree on the validation path
and whenever the generation call succeeds; they differ exactly in the
failure reply ("Query processing failed." in the webhook variant,
"Gemini query processing failed." in the polling variant). -/
theorem c8_amended {α : Type} (MAX : ℕ) (WINDOW : ℚ) (handler : α)
    (stored : Option (List ℚ)) (now : ℚ)
    (http : List Nat → Except Unit (List (List Nat × ℚ)))
    (fetch : List Nat → List (List Nat × ℚ))
    (getPrices : List (List Nat) → List Nat) (askG : List Nat → List Nat)
    (gen : List Nat → Except Unit (List Nat))
    (ids : List (List Nat)) (k q text : List Nat) :
    rate_limit MAX WINDOW handler stored now
      = rate_limit_v1 MAX WINDOW handler stored now
    ∧ get_cached_crypto_prices_raw http k
      = get_cached_crypto_prices_v1_raw http k
    ∧ get_crypto_prices fetch ids = get_crypto_prices_v1 fetch ids
    ∧ handle_message getPrices askG text
      = handle_message_v1 getPrices askG text
    ∧ (q = [] ∨ 1000 < q.length → ask_gemini gen q = ask_gemini_v1 gen q)
    ∧ (∀ t, gen (system_prompt ++ [10, 10] ++ pystr r"User: " ++ q) = .ok t →
        ask_gemini gen q = ask_gemini_v1 gen q) := by
  refine ⟨rfl, rfl, rfl, rfl, fun h => ?_, fun t ht => ?_⟩
  · unfold ask_gemini ask_gemini_v1
    rw [if_pos h, if_pos h]
  · by_cases hq : q = [] ∨ 1000 < q.length
    · unfold ask_gemini ask_gemini_v1
      rw [if_pos hq, if_pos hq]
    · unfold ask_gemini ask_gemini_v1
      rw [if_neg hq, if_neg hq, ht]

/-- C8 amended, witness: evaluation of the agreement statements at
concrete inputs — the limiter at a stored list, and the assistant
clients on the valid question "hi" with a generation call that
succeeds with the empty reply. -/
theorem c8_amended_witness :
    rate_limit 1 60 (0 : ℕ) (some [0]) 10
      = rate_limit_v1 1 60 (0 : ℕ) (some [0]) 10
    ∧ ask_gemini (fun _ => Except.ok []) (pystr r"hi")
      = ask_gemini_v1 (fun _ => Except.ok []) (pystr r"hi") := by
  refine ⟨?_, ?_⟩
  · exact (c8_amended 1 60 (0 : ℕ) (some [0]) 10 (fun _ => Except.error ())
      (fun _ => []) (fun _ => []) (fun s => s) (fun _ => Except.ok [])
      [] [] (pystr r"hi") []).1
  · exact (c8_amended 1 60 (0 : ℕ) (some [0]) 10 (fun _ => Except.error ())
      (fun _ => []) (fun _ => []) (fun s => s) (fun _ => Except.ok [])
      [] [] (pystr r"hi") []).2.2.2.2.2 [] rfl
